import Mathlib

/-
Verification of the MELT ingestion exporter (platform/melt/exporter.go).

The Go code is shallowly embedded as Lean definitions:
  * `map[string]interface{}` values become `GoMap`, an optional association
    list (`none` models a nil Go map; reading a nil map yields no entries,
    writing to one panics).
  * Go `float64` values are modelled as rationals (`ℚ`); the only numeric
    operation the exporter performs on them is the Go conversion
    `int64(x)`, which truncates toward zero and is modelled by `ratTrunc`.
  * Machine integers are modelled as `Int`/`Nat` carrying the mathematical
    value of the machine word; the unsigned→signed reinterpretation
    `int64(u)` is `uint64ToInt64`, and `uint64(i)` is `toUint64`.
  * Functions that can only fail by a Go runtime panic return
    `Except String α`; the `.error` payload is the runtime panic message.
  * The protobuf marshaler, the dump writer and the HTTP POST are external
    collaborators; an export call is modelled as an `Outcome` paired with
    the ordered trace of `Event`s (marshal, dump, post) it performs.

The melt model record types (`Entity`, `Metric`, `Log`, `Span`, …) are not
part of the sources under verification; their shapes are reconstructed from
their uses in exporter.go and from the specification's data-model section.
-/

namespace Melt

/-- Constant `pathMetrics` from the source. -/
def pathMetrics : String := "metrics"

/-- Constant `pathLogs` from the source. -/
def pathLogs : String := "logs"

/-- Constant `pathSpans` from the source. -/
def pathSpans : String := "trace"

/-- Constant `agentName` from the source. -/
def agentName : String := "sample-datagen"

/-- Constant `agentVersion` from the source. -/
def agentVersion : String := "0.0.1"

/-- Constant `keyAppdFMMEntityRelationships` from the source. -/
def keyAppdFMMEntityRelationships : String := "appd.fmm.entity.relations"

/-- Constant `keyAppdIsEvent` from the source. -/
def keyAppdIsEvent : String := "appd.isevent"

/-- Constant `keyAppdEventType` from the source. -/
def keyAppdEventType : String := "appd.event.type"

mutual

/-- OTLP `common.AnyValue`.  The protobuf wrappers `ArrayValue` and
`KeyValueList` are collapsed into their value lists. -/
inductive AnyValue where
  | StringValue : String → AnyValue
  | BoolValue : Bool → AnyValue
  | IntValue : Int → AnyValue
  | DoubleValue : ℚ → AnyValue
  | ArrayValue : List AnyValue → AnyValue
  | KvlistValue : List KeyValue → AnyValue

/-- OTLP `common.KeyValue`: a key paired with an `AnyValue`. -/
inductive KeyValue where
  | mk : String → AnyValue → KeyValue

end

/-- Key of an OTLP `KeyValue`. -/
def KeyValue.Key : KeyValue → String
  | .mk k _ => k

/-- Value of an OTLP `KeyValue`. -/
def KeyValue.Val : KeyValue → AnyValue
  | .mk _ v => v

/-- OTLP `common.InstrumentationScope` (only the fields the exporter sets). -/
structure InstrumentationScope where
  Name : String
  Version : String

/-- OTLP `resource.Resource` (only the attribute list is used). -/
structure Resource where
  Attributes : List KeyValue

/-- Dynamically typed Go attribute value (`interface{}`), tagged with the
reflection kind the exporter dispatches on.  Integer constructors carry the
mathematical value of the machine word; `goOther` carries the
`fmt.Sprintf` rendering of a value of any other kind; `goNil` is a nil
interface value. -/
inductive GoValue where
  | goBool (b : Bool)
  | goInt (v : Int)
  | goInt8 (v : Int)
  | goInt16 (v : Int)
  | goInt32 (v : Int)
  | goInt64 (v : Int)
  | goUint (u : Nat)
  | goUint8 (u : Nat)
  | goUint16 (u : Nat)
  | goUint32 (u : Nat)
  | goUint64 (u : Nat)
  | goFloat32 (d : ℚ)
  | goFloat64 (d : ℚ)
  | goString (s : String)
  | goNil
  | goOther (rendered : String)
deriving DecidableEq

/-- Go `map[string]interface{}`: `none` is a nil map, `some l` is a map with
entries `l` listed in some iteration order (Go's iteration order is
unspecified; the model fixes the list order). -/
abbrev GoMap := Option (List (String × GoValue))

/-- Two's-complement reinterpretation of an unsigned 64-bit value as a
signed 64-bit value: Go's `int64(vt.Uint())`. -/
def uint64ToInt64 (u : Nat) : Int :=
  if u % 2 ^ 64 < 2 ^ 63 then ((u % 2 ^ 64 : Nat) : Int)
  else ((u % 2 ^ 64 : Nat) : Int) - 2 ^ 64

/-- Two's-complement conversion of a signed integer to uint64: Go's
`uint64(x)`. -/
def toUint64 (i : Int) : Nat := (i % (2 ^ 64 : Int)).toNat

/-- Dispatch of `toKeyValueList` on the reflection kind of one value
(the `switch vt.Kind()` in the source).  `none` models the
`continue` taken for a nil value.  Note that the source's case lists omit
`reflect.Int16` and `reflect.Uint16`: those kinds fall into the `default`
branch and are rendered as strings via `fmt.Sprintf("%v", ...)`, modelled
here by decimal `toString`. -/
def attrAnyValue : GoValue → Option AnyValue
  | .goBool b => some (.BoolValue b)
  | .goInt v | .goInt8 v | .goInt32 v | .goInt64 v => some (.IntValue v)
  | .goUint u | .goUint8 u | .goUint32 u | .goUint64 u =>
      some (.IntValue (uint64ToInt64 u))
  | .goFloat32 d | .goFloat64 d => some (.DoubleValue d)
  | .goString s => some (.StringValue s)
  | .goNil => none
  | .goInt16 v => some (.StringValue (toString v))
  | .goUint16 u => some (.StringValue (toString u))
  | .goOther rendered => some (.StringValue rendered)

/-- Function `toKeyValueList` from the source: coerce a Go attribute map to
an OTLP `KeyValue` list, in iteration order, skipping nil values.
Ranging over a nil map yields no entries. -/
def toKeyValueList (a : GoMap) : List KeyValue :=
  (a.getD []).filterMap fun kv => (attrAnyValue kv.2).map fun v => .mk kv.1 v

/-- Function `getInstrumentationScope` from the source. -/
def getInstrumentationScope : InstrumentationScope :=
  { Name := agentName, Version := agentVersion }

/-- Modelled from the spec: the melt model's `AggregationTemporality`
constants (`AggregationTemporalityDelta`, `AggregationTemporalityCumulative`
and the unspecified default); the defining Go file is not among the sources
under verification, the spec fixes the value set
{unspecified, delta, cumulative}. -/
inductive AggregationTemporality where
  | unspecified
  | delta
  | cumulative
deriving DecidableEq

/-- Melt model `Relationship`: an attribute bundle describing an edge
(shape reconstructed from its use in `addRelationships`). -/
structure Relationship where
  Attributes : GoMap

/-- Melt model `DataPoint`: times are epoch nanoseconds held in a signed
64-bit field, the value is a Go `float64` (modelled as ℚ). -/
structure DataPoint where
  StartTime : Int
  EndTime : Int
  Value : ℚ

/-- Melt model `Metric` (shape reconstructed from its use in
`createOtelMetric`). -/
structure Metric where
  TypeName : String
  ContentType : String
  «Type» : String
  IsMonotonic : Bool
  AggregationTemporality : AggregationTemporality
  Attributes : GoMap
  DataPoints : List DataPoint

/-- Melt model `Log` (shape reconstructed from its use in
`createOtelLog`). -/
structure Log where
  TypeName : String
  Body : String
  Timestamp : Int
  Severity : String
  Attributes : GoMap
  IsEvent : Bool

/-- Melt model span event (shape reconstructed from its use in
`createOtelSpan`). -/
structure SpanEvent where
  Timestamp : Int
  Name : String
  Attributes : GoMap

/-- Melt model span link (shape reconstructed from its use in
`createOtelSpan`). -/
structure SpanLink where
  TraceID : String
  SpanID : String
  TraceState : String
  Attributes : GoMap

/-- Melt model span status (shape reconstructed from its use in
`createOtelSpan`). -/
structure SpanStatus where
  Code : Int
  Message : String

/-- Melt model `Span` (shape reconstructed from its use in
`createOtelSpan`). -/
structure Span where
  Name : String
  TraceID : String
  SpanID : String
  ParentSpanID : String
  TraceState : String
  Kind : Int
  StartTime : Int
  EndTime : Int
  Attributes : GoMap
  Events : List SpanEvent
  Links : List SpanLink
  Status : Option SpanStatus

/-- Melt model `Entity`: attributes, relationships and the telemetry
sequences, per the spec's data model. -/
structure Entity where
  Attributes : GoMap
  Relationships : List Relationship
  Metrics : List Metric
  Logs : List Log
  Spans : List Span

/-- Update of one key in a Go map's entry list: replace the first binding of
the key, or append a fresh binding. -/
def setKey : List (String × GoValue) → String → GoValue → List (String × GoValue)
  | [], k, v => [(k, v)]
  | (k', v') :: rest, k, v =>
      if k' = k then (k, v) :: rest else (k', v') :: setKey rest k v

/-- Go map assignment `m[k] = v`.  Writing to a nil map is a runtime panic,
modelled as an `Except.error` carrying the Go runtime message. -/
def mapSet (m : GoMap) (k : String) (v : GoValue) : Except String GoMap :=
  match m with
  | none => .error "assignment to entry in nil map"
  | some l => .ok (some (setKey l k v))

/-- Go conversion `int64(x)` for a `float64` value (modelled as ℚ):
truncation toward zero, i.e. floor for nonnegative values and ceiling for
negative ones. -/
def ratTrunc (q : ℚ) : Int := if 0 ≤ q then ⌊q⌋ else ⌈q⌉

/-- OTLP aggregation temporality enum (`metrics.AggregationTemporality_*`
constants). -/
inductive OtlpAggregationTemporality where
  | unspecified
  | delta
  | cumulative
deriving DecidableEq

/-- Value of an OTLP `NumberDataPoint` (`AsInt` or `AsDouble` oneof arm). -/
inductive NumberValue where
  | AsInt (i : Int)
  | AsDouble (d : ℚ)

/-- OTLP `metrics.NumberDataPoint` (fields the exporter sets); `Value` is
`none` when neither oneof arm was assigned. -/
structure NumberDataPoint where
  StartTimeUnixNano : Nat
  TimeUnixNano : Nat
  Attributes : List KeyValue
  Value : Option NumberValue

/-- OTLP `metrics.Sum` (fields the exporter sets). -/
structure Sum where
  AggregationTemporality : OtlpAggregationTemporality
  IsMonotonic : Bool
  DataPoints : List NumberDataPoint

/-- OTLP `metrics.Gauge`. -/
structure Gauge where
  DataPoints : List NumberDataPoint

/-- OTLP `metrics.Metric.Data` oneof (only the arms the exporter emits). -/
inductive MetricData where
  | sum (s : Sum)
  | gauge (g : Gauge)

/-- OTLP `metrics.Metric` as built by `createOtelMetric`; the `Data` oneof
is always assigned on the non-nil results. -/
structure OtelMetric where
  Name : String
  Data : MetricData

/-- Function `createOtelMetric` from the source.  A `none` result models the
nil pointer returned (with an error log) for a `ContentType` other than
"sum" or "gauge". -/
def createOtelMetric (m : Metric) : Option OtelMetric :=
  if m.ContentType = "sum" then
    let mAttribs := toKeyValueList m.Attributes
    let temporality :=
      match m.AggregationTemporality with
      | .delta => OtlpAggregationTemporality.delta
      | .cumulative => OtlpAggregationTemporality.cumulative
      | .unspecified => OtlpAggregationTemporality.unspecified
    let dps := m.DataPoints.map fun dp =>
      ({ StartTimeUnixNano := toUint64 dp.StartTime
         TimeUnixNano := toUint64 dp.EndTime
         Attributes := mAttribs
         Value :=
           if m.«Type» = "long" then some (.AsInt (ratTrunc dp.Value))
           else if m.«Type» = "double" then some (.AsDouble dp.Value)
           else none } : NumberDataPoint)
    some { Name := m.TypeName
           Data := .sum { AggregationTemporality := temporality
                          IsMonotonic := m.IsMonotonic
                          DataPoints := dps } }
  else if m.ContentType = "gauge" then
    let mAttribs := toKeyValueList m.Attributes
    let dps := m.DataPoints.map fun dp =>
      ({ StartTimeUnixNano := toUint64 dp.StartTime
         TimeUnixNano := toUint64 dp.EndTime
         Attributes := mAttribs
         Value :=
           if m.«Type» = "long" then some (.AsInt (ratTrunc dp.Value))
           else if m.«Type» = "double" then some (.AsDouble dp.Value)
           else none } : NumberDataPoint)
    some { Name := m.TypeName
           Data := .gauge { DataPoints := dps } }
  else
    none

/-- OTLP `logs.LogRecord` (fields the exporter sets).  `SeverityText`
defaults to the empty string when `Severity` is empty. -/
structure LogRecord where
  Body : AnyValue
  TimeUnixNano : Nat
  Attributes : List KeyValue
  SeverityText : String

/-- Function `createOtelLog` from the source.  When `IsEvent` is set the two
event-marker attributes are written into the caller's map before coercion;
the updated `Log` is returned alongside the record to make the mutation of
the caller's mapping explicit.  Writing the markers into a nil map is a
runtime panic (`Except.error`). -/
def createOtelLog (l : Log) : Except String (LogRecord × Log) := do
  let l ←
    if l.IsEvent then do
      let a ← mapSet l.Attributes keyAppdIsEvent (.goString "true")
      let a ← mapSet a keyAppdEventType (.goString l.TypeName)
      pure { l with Attributes := a }
    else
      pure l
  let lAttribs := toKeyValueList l.Attributes
  let otl : LogRecord :=
    { Body := .StringValue l.Body
      TimeUnixNano := toUint64 l.Timestamp
      Attributes := lAttribs
      SeverityText := if l.Severity ≠ "" then l.Severity else "" }
  return (otl, l)

/-- OTLP `trace.Span.Event` (fields the exporter sets). -/
structure OtelSpanEvent where
  TimeUnixNano : Nat
  Name : String
  Attributes : List KeyValue

/-- OTLP `trace.Span.Link` (fields the exporter sets).  The id byte slices
(`[]byte(...)`) are modelled by the strings whose bytes they are. -/
structure OtelSpanLink where
  TraceId : String
  SpanId : String
  TraceState : String
  Attributes : List KeyValue

/-- OTLP `trace.Status` (fields the exporter sets). -/
structure OtelStatus where
  Message : String
  Code : Int

/-- OTLP `trace.Span` (fields the exporter sets). -/
structure OtelSpan where
  Name : String
  TraceId : String
  SpanId : String
  TraceState : String
  ParentSpanId : String
  Kind : Int
  StartTimeUnixNano : Nat
  EndTimeUnixNano : Nat
  Attributes : List KeyValue
  Events : List OtelSpanEvent
  Links : List OtelSpanLink
  Status : Option OtelStatus

/-- Function `createOtelSpan` from the source. -/
def createOtelSpan (t : Span) : OtelSpan :=
  { Name := t.Name
    TraceId := t.TraceID
    SpanId := t.SpanID
    TraceState := t.TraceState
    ParentSpanId := t.ParentSpanID
    Kind := t.Kind
    StartTimeUnixNano := toUint64 t.StartTime
    EndTimeUnixNano := toUint64 t.EndTime
    Attributes := toKeyValueList t.Attributes
    Events := t.Events.map fun e =>
      { TimeUnixNano := toUint64 e.Timestamp
        Name := e.Name
        Attributes := toKeyValueList e.Attributes }
    Links := t.Links.map fun l =>
      { TraceId := l.TraceID
        SpanId := l.SpanID
        TraceState := l.TraceState
        Attributes := toKeyValueList l.Attributes }
    Status := t.Status.map fun st =>
      { Message := st.Message, Code := st.Code } }

/-- OTLP `metrics.ScopeMetrics`.  The metric list holds `Option OtelMetric`
because the payload builder appends `createOtelMetric`'s result even when it
is the nil pointer. -/
structure ScopeMetrics where
  Scope : InstrumentationScope
  Metrics : List (Option OtelMetric)

/-- OTLP `metrics.ResourceMetrics` (fields the exporter sets). -/
structure ResourceMetrics where
  Resource : Resource
  ScopeMetrics : List ScopeMetrics

/-- OTLP `collector.metrics.ExportMetricsServiceRequest`; the empty list
models the nil slice of a request with nothing appended. -/
structure ExportMetricsServiceRequest where
  ResourceMetrics : List ResourceMetrics

/-- OTLP `logs.ScopeLogs` (fields the exporter sets). -/
structure ScopeLogs where
  Scope : InstrumentationScope
  LogRecords : List LogRecord

/-- OTLP `logs.ResourceLogs` (fields the exporter sets). -/
structure ResourceLogs where
  Resource : Resource
  ScopeLogs : List ScopeLogs

/-- OTLP `collector.logs.ExportLogsServiceRequest`. -/
structure ExportLogsServiceRequest where
  ResourceLogs : List ResourceLogs

/-- OTLP `trace.ScopeSpans` (fields the exporter sets). -/
structure ScopeSpans where
  Spans : List OtelSpan
  Scope : InstrumentationScope

/-- OTLP `trace.ResourceSpans` (fields the exporter sets). -/
structure ResourceSpans where
  Resource : Resource
  ScopeSpans : List ScopeSpans

/-- OTLP `collector.trace.ExportTraceServiceRequest`. -/
structure ExportTraceServiceRequest where
  ResourceSpans : List ResourceSpans

/-- Method `addRelationships` from the source (the receiver is unused):
when the relationship sequence is non-empty, append under the reserved key
one array value holding, per relationship, the kv-list of its coerced
attributes; otherwise leave the resource untouched. -/
def addRelationships (rels : List Relationship) (r : Resource) : Resource :=
  if rels.length > 0 then
    let vals := rels.map fun rel => AnyValue.KvlistValue (toKeyValueList rel.Attributes)
    { r with Attributes :=
        r.Attributes ++ [.mk keyAppdFMMEntityRelationships (.ArrayValue vals)] }
  else
    r

/-- Method `addRelationshipsToMetrics` from the source (the receiver is
unused): the same construction as `addRelationships`, written against the
resource carried by a `ResourceMetrics`. -/
def addRelationshipsToMetrics (rels : List Relationship) (rm : ResourceMetrics) :
    ResourceMetrics :=
  if rels.length > 0 then
    let vals := rels.map fun rel => AnyValue.KvlistValue (toKeyValueList rel.Attributes)
    { rm with Resource :=
        { rm.Resource with Attributes :=
            rm.Resource.Attributes ++
              [.mk keyAppdFMMEntityRelationships (.ArrayValue vals)] } }
  else
    rm

/-- Method `buildMetricsPayload` from the source: one `ResourceMetrics` per
entity with a non-empty metric list (empty entities are skipped by the
`continue`), carrying the coerced entity attributes, the relationship
attribute, and a single `ScopeMetrics` holding the per-metric results of
`createOtelMetric` — appended unconditionally, nil results included. -/
def buildMetricsPayload (entities : List Entity) : ExportMetricsServiceRequest :=
  { ResourceMetrics := entities.filterMap fun entity =>
      if entity.Metrics.length = 0 then none
      else
        let rm : ResourceMetrics :=
          { Resource := { Attributes := toKeyValueList entity.Attributes }
            ScopeMetrics := [] }
        let rm := addRelationshipsToMetrics entity.Relationships rm
        let ml := entity.Metrics.map fun m => createOtelMetric m
        let ilm : ScopeMetrics := { Metrics := ml, Scope := getInstrumentationScope }
        some { rm with ScopeMetrics := [ilm] } }

/-- Inner loop of `buildLogsPayload`: translate each log in order,
propagating the runtime panic of `createOtelLog`. -/
def createLogRecords : List Log → Except String (List LogRecord)
  | [] => .ok []
  | l :: rest => do
      let otl ← createOtelLog l
      let lrs ← createLogRecords rest
      return otl.1 :: lrs

/-- Outer loop of `buildLogsPayload`: one `ResourceLogs` per entity with a
non-empty log list, carrying the coerced entity attributes, the relationship
attribute and a single `ScopeLogs` with the translated records. -/
def buildResourceLogs : List Entity → Except String (List ResourceLogs)
  | [] => .ok []
  | e :: rest =>
      if e.Logs.length = 0 then buildResourceLogs rest
      else do
        let res := addRelationships e.Relationships
          { Attributes := toKeyValueList e.Attributes }
        let lr ← createLogRecords e.Logs
        let ill : ScopeLogs := { LogRecords := lr, Scope := getInstrumentationScope }
        let rest' ← buildResourceLogs rest
        return { Resource := res, ScopeLogs := [ill] } :: rest'

/-- Method `buildLogsPayload` from the source. -/
def buildLogsPayload (entities : List Entity) : Except String ExportLogsServiceRequest := do
  let rls ← buildResourceLogs entities
  return { ResourceLogs := rls }

/-- Method `buildSpansPayload` from the source: one `ResourceSpans` per
entity with a non-empty span list.  No relationship attribute is attached on
the spans path. -/
def buildSpansPayload (entities : List Entity) : ExportTraceServiceRequest :=
  { ResourceSpans := entities.filterMap fun e =>
      if e.Spans.length = 0 then none
      else
        some { Resource := { Attributes := toKeyValueList e.Attributes }
               ScopeSpans := [{ Spans := e.Spans.map fun s => createOtelSpan s
                                Scope := getInstrumentationScope }] } }

/-- Exporter configuration.  The dump callback of the source is modelled by
the flag `DumpConfigured` (`DumpFunc != nil`) together with the `dumped`
event in the observable trace. -/
structure Exporter where
  DumpConfigured : Bool
  DumpFormat : String
  DryRun : Bool

/-- Result of an export call: a nil error, a returned error value, or a Go
runtime panic (which in Go aborts the call rather than returning). -/
inductive Outcome where
  | ok
  | err (msg : String)
  | panicked (msg : String)
deriving DecidableEq

/-- Observable side effects of an export call, in order: successful protobuf
marshaling of the payload, an invocation of the dump callback, and an HTTP
POST to a path. -/
inductive Event where
  | marshalled
  | dumped (format : String)
  | posted (path : String)
deriving DecidableEq

/-- Method `exportHTTP` from the source.  Marshaling the in-memory payloads
built by this exporter never fails, so the trace always opens with
`marshalled`; the dump callback, when configured, runs right after
marshaling; the POST to `data/v1/<path>` is skipped when `DryRun` is set.
`postErr` is the HTTP collaborator's response (`some` = transport error,
returned to the caller after the permission-hint logging). -/
def exportHTTP (exp : Exporter) (path : String) (postErr : Option String) :
    Outcome × List Event :=
  let evs := [Event.marshalled]
  let evs := if exp.DumpConfigured then evs ++ [Event.dumped exp.DumpFormat] else evs
  if !exp.DryRun then
    let evs := evs ++ [Event.posted ("data/v1/" ++ path)]
    match postErr with
    | some e => (.err e, evs)
    | none => (.ok, evs)
  else
    (.ok, evs)

/-- Method `ExportMetrics` from the source: build the payload; when the
top-level sequence is nil, log "No metrics to send" and return success with
no transmission; otherwise hand the payload to `exportHTTP`. -/
def ExportMetrics (exp : Exporter) (entities : List Entity) (postErr : Option String) :
    Outcome × List Event :=
  let emsr := buildMetricsPayload entities
  match emsr.ResourceMetrics with
  | [] => (.ok, [])
  | _ => exportHTTP exp pathMetrics postErr

/-- Method `ExportLogs` from the source; a panic raised while building the
payload propagates (as `Outcome.panicked`) before any transmission. -/
def ExportLogs (exp : Exporter) (entities : List Entity) (postErr : Option String) :
    Outcome × List Event :=
  match buildLogsPayload entities with
  | .error p => (.panicked p, [])
  | .ok elsr =>
      match elsr.ResourceLogs with
      | [] => (.ok, [])
      | _ => exportHTTP exp pathLogs postErr

/-- Method `ExportEvents` from the source: an alias for `ExportLogs`. -/
def ExportEvents (exp : Exporter) (entities : List Entity) (postErr : Option String) :
    Outcome × List Event :=
  ExportLogs exp entities postErr

/-- Method `ExportSpans` from the source. -/
def ExportSpans (exp : Exporter) (entities : List Entity) (postErr : Option String) :
    Outcome × List Event :=
  let essr := buildSpansPayload entities
  match essr.ResourceSpans with
  | [] => (.ok, [])
  | _ => exportHTTP exp pathSpans postErr

/-! Helper lemmas shared by the claim theorems. -/

/-- Coercing a map emits one `KeyValue` for every entry whose value the
dispatch accepts. -/
theorem mem_toKeyValueList {a : List (String × GoValue)} {k : String} {gv : GoValue}
    {av : AnyValue} (h : (k, gv) ∈ a) (h' : attrAnyValue gv = some av) :
    KeyValue.mk k av ∈ toKeyValueList (some a) := by
  simp only [toKeyValueList, Option.getD_some]
  exact List.mem_filterMap.mpr ⟨(k, gv), h, by simp [h']⟩

/-- The written binding is in the updated map. -/
theorem mem_setKey_self (l : List (String × GoValue)) (k : String) (v : GoValue) :
    (k, v) ∈ setKey l k v := by
  induction l with
  | nil => simp [setKey]
  | cons hd tl ih =>
      obtain ⟨k0, v0⟩ := hd
      by_cases h : k0 = k
      · simp [setKey, h]
      · simp only [setKey, if_neg h]
        exact List.mem_cons_of_mem _ ih

/-- Bindings of other keys survive a map write. -/
theorem mem_setKey_of_ne {l : List (String × GoValue)} {k' : String} {v' : GoValue}
    (k : String) (v : GoValue) (hne : k' ≠ k) (h : (k', v') ∈ l) :
    (k', v') ∈ setKey l k v := by
  induction l with
  | nil => cases h
  | cons hd tl ih =>
      obtain ⟨k0, v0⟩ := hd
      rcases List.mem_cons.mp h with heq | hmem
      · injection heq with h1 h2
        subst h1; subst h2
        simp only [setKey, if_neg hne]
        exact List.mem_cons_self ..
      · by_cases h0 : k0 = k
        · simp only [setKey, if_pos h0]
          exact List.mem_cons_of_mem _ hmem
        · simp only [setKey, if_neg h0]
          exact List.mem_cons_of_mem _ (ih hmem)

/-- The metric lists carried by the metrics payload, per non-skipped entity:
exactly the image of `createOtelMetric` over the entity's metrics. -/
theorem buildMetricsPayload_map_metrics (entities : List Entity) :
    ((buildMetricsPayload entities).ResourceMetrics.map fun rm =>
        rm.ScopeMetrics.map ScopeMetrics.Metrics) =
      (entities.filter fun e => !e.Metrics.isEmpty).map
        fun e => [e.Metrics.map createOtelMetric] := by
  induction entities with
  | nil => rfl
  | cons e rest ih =>
      rcases hM : e.Metrics with _ | ⟨m, ms⟩
      · simpa [buildMetricsPayload, hM, List.filter_cons] using ih
      · simp only [buildMetricsPayload, List.filterMap_cons, hM, List.length_cons,
          List.filter_cons, List.isEmpty_cons, Bool.not_false, if_true] at ih ⊢
        simp only [Nat.succ_ne_zero, if_false, List.map_cons, List.map_nil, hM,
          List.cons.injEq]
        exact ⟨trivial, ih⟩

/-- Every block of the metrics payload carries a single scope list holding
the constant instrumentation scope. -/
theorem buildMetricsPayload_scopes (entities : List Entity) :
    ∀ rm ∈ (buildMetricsPayload entities).ResourceMetrics,
      rm.ScopeMetrics.map ScopeMetrics.Scope = [getInstrumentationScope] := by
  intro rm hrm
  simp only [buildMetricsPayload] at hrm
  obtain ⟨e, _, hee⟩ := List.mem_filterMap.mp hrm
  by_cases h : e.Metrics.length = 0
  · simp [h] at hee
  · simp only [if_neg h, Option.some.injEq] at hee
    subst hee
    rfl

/-- An entity that carries metrics forces a non-empty metrics payload. -/
theorem buildMetricsPayload_ne_nil {entities : List Entity} {e : Entity}
    (he : e ∈ entities) (hm : e.Metrics ≠ []) :
    (buildMetricsPayload entities).ResourceMetrics ≠ [] := by
  intro hnil
  have hmap := buildMetricsPayload_map_metrics entities
  rw [hnil] at hmap
  have hfil : (entities.filter fun e => !e.Metrics.isEmpty) = [] :=
    List.map_eq_nil_iff.mp hmap.symm
  have hin : e ∈ entities.filter fun e => !e.Metrics.isEmpty :=
    List.mem_filter.mpr ⟨he, by simpa [List.isEmpty_iff] using hm⟩
  rw [hfil] at hin
  cases hin

/-- An entity list with no logs at all produces an empty logs payload. -/
theorem buildResourceLogs_all_empty {entities : List Entity}
    (h : ∀ e ∈ entities, e.Logs = []) : buildResourceLogs entities = .ok [] := by
  induction entities with
  | nil => rfl
  | cons e rest ih =>
      have he : e.Logs = [] := h e (List.mem_cons_self ..)
      have ih' := ih fun e' h' => h e' (List.mem_cons_of_mem _ h')
      simp [buildResourceLogs, he, ih']

/-- When the logs payload builds without a panic, it holds one resource
block per entity with a non-empty log list. -/
theorem buildResourceLogs_length {entities : List Entity} {rls : List ResourceLogs}
    (h : buildResourceLogs entities = .ok rls) :
    rls.length = (entities.filter fun e => !e.Logs.isEmpty).length := by
  induction entities generalizing rls with
  | nil =>
      simp only [buildResourceLogs, Except.ok.injEq] at h
      subst h; rfl
  | cons e rest ih =>
      rcases hL : e.Logs with _ | ⟨l, ls⟩
      · rw [buildResourceLogs, hL] at h
        simp only [List.length_nil, if_pos rfl] at h
        simpa [List.filter_cons, hL] using ih h
      · rw [buildResourceLogs, hL] at h
        simp only [List.length_cons, Nat.succ_ne_zero, if_false, bind, Except.bind] at h
        cases hcr : createLogRecords (l :: ls) with
        | error p => rw [hcr] at h; cases h
        | ok lr =>
            rw [hcr] at h
            cases hrest : buildResourceLogs rest with
            | error p => rw [hrest] at h; cases h
            | ok rest' =>
                rw [hrest] at h
                simp only [pure, Except.pure, Except.ok.injEq] at h
                subst h
                simp [List.filter_cons, hL, ih hrest]

/-- Every block of a successfully built logs payload carries a single scope
list holding the constant instrumentation scope. -/
theorem buildResourceLogs_scopes {entities : List Entity} {rls : List ResourceLogs}
    (h : buildResourceLogs entities = .ok rls) :
    ∀ rl ∈ rls, rl.ScopeLogs.map ScopeLogs.Scope = [getInstrumentationScope] := by
  induction entities generalizing rls with
  | nil =>
      simp only [buildResourceLogs, Except.ok.injEq] at h
      subst h; intro rl hrl; cases hrl
  | cons e rest ih =>
      rcases hL : e.Logs with _ | ⟨l, ls⟩
      · rw [buildResourceLogs, hL] at h
        simp only [List.length_nil, if_pos rfl] at h
        exact ih h
      · rw [buildResourceLogs, hL] at h
        simp only [List.length_cons, Nat.succ_ne_zero, if_false, bind, Except.bind] at h
        cases hcr : createLogRecords (l :: ls) with
        | error p => rw [hcr] at h; cases h
        | ok lr =>
            rw [hcr] at h
            cases hrest : buildResourceLogs rest with
            | error p => rw [hrest] at h; cases h
            | ok rest' =>
                rw [hrest] at h
                simp only [pure, Except.pure, Except.ok.injEq] at h
                subst h
                intro rl hrl
                rcases List.mem_cons.mp hrl with heq | hmem
                · subst heq; rfl
                · exact ih hrest rl hmem

/-- One resource block per entity with a non-empty span list. -/
theorem buildSpansPayload_length (entities : List Entity) :
    (buildSpansPayload entities).ResourceSpans.length =
      (entities.filter fun e => !e.Spans.isEmpty).length := by
  induction entities with
  | nil => rfl
  | cons e rest ih =>
      rcases hS : e.Spans with _ | ⟨s, ss⟩
      · simpa [buildSpansPayload, List.filterMap_cons, hS, List.filter_cons] using ih
      · simp only [buildSpansPayload, List.filterMap_cons, hS, List.length_cons,
          Nat.succ_ne_zero, if_false, List.filter_cons, List.isEmpty_cons,
          Bool.not_false, if_true, List.length_cons] at ih ⊢
        simpa [buildSpansPayload] using ih

/-- Every block of the spans payload carries a single scope list holding the
constant instrumentation scope. -/
theorem buildSpansPayload_scopes (entities : List Entity) :
    ∀ rs ∈ (buildSpansPayload entities).ResourceSpans,
      rs.ScopeSpans.map ScopeSpans.Scope = [getInstrumentationScope] := by
  intro rs hrs
  simp only [buildSpansPayload] at hrs
  obtain ⟨e, _, hee⟩ := List.mem_filterMap.mp hrs
  by_cases h : e.Spans.length = 0
  · simp [h] at hee
  · simp only [if_neg h, Option.some.injEq] at hee
    subst hee
    rfl

/-! Claim C1: handling of an unsupported metric content type. -/

/-- Concrete metric with an unsupported content type, used by C1. -/
def c1Metric : Metric :=
  { TypeName := "m"
    ContentType := "histogram"
    «Type» := "long"
    IsMonotonic := false
    AggregationTemporality := .unspecified
    Attributes := none
    DataPoints := [] }

/-- Concrete entity holding only `c1Metric`, used by C1. -/
def c1Entity : Entity :=
  { Attributes := none
    Relationships := []
    Metrics := [c1Metric]
    Logs := []
    Spans := [] }

/-- C1 counterexample: for an entity whose single metric has the
unsupported content type "histogram", the Metrics list of the containing
ScopeMetrics is `[none]` — it holds a nil placeholder for the dropped
metric and has the same length 1 as the input list, so it is not shorter
than the input as the claim states. -/
theorem c1_counterexample :
    ((buildMetricsPayload [c1Entity]).ResourceMetrics.map fun rm =>
        rm.ScopeMetrics.map ScopeMetrics.Metrics) = [[[none]]]
    ∧ c1Entity.Metrics.length = 1 := ⟨rfl, rfl⟩

/-- C1 (amended): for every metric whose ContentType is neither "sum" nor
"gauge", `createOtelMetric` logs an error and returns the nil metric, but
`buildMetricsPayload` appends that nil result all the same, so the Metrics
list of the containing ScopeMetrics is exactly the image of
`createOtelMetric` over the input metrics, in order — the same length as
the input list, with a nil placeholder at the position of every unsupported
metric. -/
theorem c1_unsupported_metric_nil_placeholder :
    (∀ m : Metric, m.ContentType ≠ "sum" → m.ContentType ≠ "gauge" →
        createOtelMetric m = none)
    ∧ ∀ entities : List Entity,
        ((buildMetricsPayload entities).ResourceMetrics.map fun rm =>
            rm.ScopeMetrics.map ScopeMetrics.Metrics) =
          (entities.filter fun e => !e.Metrics.isEmpty).map
            fun e => [e.Metrics.map createOtelMetric] := by
  refine ⟨fun m h1 h2 => ?_, buildMetricsPayload_map_metrics⟩
  simp [createOtelMetric, h1, h2]

/-- C1 witness: the amended claim evaluated at the "histogram" metric and
the entity carrying it. -/
theorem c1_witness :
    createOtelMetric c1Metric = none
    ∧ ((buildMetricsPayload [c1Entity]).ResourceMetrics.map fun rm =>
          rm.ScopeMetrics.map ScopeMetrics.Metrics) =
        ([c1Entity].filter fun e => !e.Metrics.isEmpty).map
          fun e => [e.Metrics.map createOtelMetric] :=
  ⟨c1_unsupported_metric_nil_placeholder.1 c1Metric (by decide) (by decide),
   c1_unsupported_metric_nil_placeholder.2 [c1Entity]⟩

/-! Claim C2: attribute coercion of the integer widths. -/

/-- C2 counterexample: a 16-bit signed value is not emitted as an IntValue;
it falls into the source's default reflection branch and is emitted as the
decimal string rendering. -/
theorem c2_counterexample :
    toKeyValueList (some [("w", .goInt16 5)]) = [.mk "w" (.StringValue "5")]
    ∧ KeyValue.mk "w" (.IntValue 5) ∉ toKeyValueList (some [("w", .goInt16 5)]) := by
  refine ⟨rfl, fun h => ?_⟩
  rw [show toKeyValueList (some [("w", GoValue.goInt16 5)]) =
      [.mk "w" (.StringValue "5")] from rfl] at h
  simp at h

/-- C2 (amended): for every key of the input mapping, a signed value of
width 8, 32, 64 or platform `int` is emitted as an IntValue holding the
value sign-extended to 64 bits, and an unsigned value of width 8, 32, 64
or platform `uint` as an IntValue holding the value reinterpreted as a
signed 64-bit word; 16-bit signed and unsigned values are missing from the
source's reflection case lists and are emitted as StringValue decimal
renderings instead. -/
theorem c2_integer_attribute_coercion :
    ∀ (a : List (String × GoValue)) (k : String),
      (∀ v : Int, (k, GoValue.goInt v) ∈ a →
        KeyValue.mk k (.IntValue v) ∈ toKeyValueList (some a))
      ∧ (∀ v : Int, (k, GoValue.goInt8 v) ∈ a →
        KeyValue.mk k (.IntValue v) ∈ toKeyValueList (some a))
      ∧ (∀ v : Int, (k, GoValue.goInt32 v) ∈ a →
        KeyValue.mk k (.IntValue v) ∈ toKeyValueList (some a))
      ∧ (∀ v : Int, (k, GoValue.goInt64 v) ∈ a →
        KeyValue.mk k (.IntValue v) ∈ toKeyValueList (some a))
      ∧ (∀ u : Nat, (k, GoValue.goUint u) ∈ a →
        KeyValue.mk k (.IntValue (uint64ToInt64 u)) ∈ toKeyValueList (some a))
      ∧ (∀ u : Nat, (k, GoValue.goUint8 u) ∈ a →
        KeyValue.mk k (.IntValue (uint64ToInt64 u)) ∈ toKeyValueList (some a))
      ∧ (∀ u : Nat, (k, GoValue.goUint32 u) ∈ a →
        KeyValue.mk k (.IntValue (uint64ToInt64 u)) ∈ toKeyValueList (some a))
      ∧ (∀ u : Nat, (k, GoValue.goUint64 u) ∈ a →
        KeyValue.mk k (.IntValue (uint64ToInt64 u)) ∈ toKeyValueList (some a))
      ∧ (∀ v : Int, (k, GoValue.goInt16 v) ∈ a →
        KeyValue.mk k (.StringValue (toString v)) ∈ toKeyValueList (some a))
      ∧ (∀ u : Nat, (k, GoValue.goUint16 u) ∈ a →
        KeyValue.mk k (.StringValue (toString u)) ∈ toKeyValueList (some a)) := by
  intro a k
  exact ⟨fun v h => mem_toKeyValueList h rfl, fun v h => mem_toKeyValueList h rfl,
    fun v h => mem_toKeyValueList h rfl, fun v h => mem_toKeyValueList h rfl,
    fun u h => mem_toKeyValueList h rfl, fun u h => mem_toKeyValueList h rfl,
    fun u h => mem_toKeyValueList h rfl, fun u h => mem_toKeyValueList h rfl,
    fun v h => mem_toKeyValueList h rfl, fun u h => mem_toKeyValueList h rfl⟩

/-- Concrete attribute map used by the C2 witness: an int8 value, a uint64
value above 2^63, and an int16 value. -/
def c2Map : List (String × GoValue) :=
  [("k", .goInt8 3), ("u", .goUint64 (2 ^ 63)), ("w", .goInt16 5)]

/-- C2 witness: the amended claim evaluated on `c2Map`; the uint64 value
2^63 reinterpreted as int64 is the negative value -2^63. -/
theorem c2_witness :
    KeyValue.mk "k" (.IntValue 3) ∈ toKeyValueList (some c2Map)
    ∧ KeyValue.mk "u" (.IntValue (uint64ToInt64 (2 ^ 63))) ∈ toKeyValueList (some c2Map)
    ∧ KeyValue.mk "w" (.StringValue (toString (5 : Int))) ∈ toKeyValueList (some c2Map)
    ∧ uint64ToInt64 (2 ^ 63) = -(2 ^ 63) :=
  ⟨(c2_integer_attribute_coercion c2Map "k").2.1 3 (by decide),
   (c2_integer_attribute_coercion c2Map "u").2.2.2.2.2.2.2.1 (2 ^ 63) (by decide),
   (c2_integer_attribute_coercion c2Map "w").2.2.2.2.2.2.2.2.1 5 (by decide),
   by decide⟩

/-! Claim C3: the no-panic policy of the export paths. -/

/-- Concrete log with `IsEvent` set and a nil attribute map, used by C3. -/
def c3Log : Log :=
  { TypeName := "t"
    Body := "b"
    Timestamp := 1
    Severity := ""
    Attributes := none
    IsEvent := true }

/-- Concrete entity holding only `c3Log`, used by C3. -/
def c3Entity : Entity :=
  { Attributes := none
    Relationships := []
    Metrics := []
    Logs := [c3Log]
    Spans := [] }

/-- C3 failing input evaluated: exporting an entity whose log has
`IsEvent = true` and a nil `Attributes` map does not return an error value —
the event-tag injection `l.Attributes[keyAppdIsEvent] = "true"` writes to a
nil Go map, which is a runtime panic ("assignment to entry in nil map"),
contradicting the claimed never-panic propagation policy. -/
theorem c3_nil_attributes_event_panics :
    ExportLogs ⟨false, "", false⟩ [c3Entity] none =
      (.panicked "assignment to entry in nil map", [])
    ∧ c3Entity.Logs.map Log.IsEvent = [true]
    ∧ c3Entity.Logs.map Log.Attributes = [none] := ⟨rfl, rfl, rfl⟩

/-! Claim C4: event tagging and mutation of the caller's attribute map. -/

/-- Concrete event log with a nil attribute map, used by the C4
counterexample and witness. -/
def c4NilLog : Log :=
  { TypeName := "ev"
    Body := "b"
    Timestamp := 2
    Severity := ""
    Attributes := none
    IsEvent := true }

/-- C4 counterexample: for a log record with `IsEvent = true` and a nil
`Attributes` mapping, no LogRecord is produced at all — the event-tag
injection writes to a nil Go map and panics — so the claim, which asserts
a produced LogRecord (with the markers injected into the caller's mapping)
for every log record, fails at this input. -/
theorem c4_counterexample :
    c4NilLog.IsEvent = true ∧ c4NilLog.Attributes = none
    ∧ createOtelLog c4NilLog = .error "assignment to entry in nil map" :=
  ⟨rfl, rfl, rfl⟩

/-- C4 (amended): a log record with `IsEvent = true` and a nil `Attributes`
mapping panics and produces no LogRecord; for every record with
`IsEvent = false` (nil or present mapping alike) the record is produced
from the unchanged mapping and carries the two event-marker key-values
exactly when the caller's own mapping yields them; for every record with
`IsEvent = true` and a present mapping, the two markers are written into
the caller's original mapping before coercion — mutating it, as returned
in the updated log — the record's attributes are the coercion of that
mutated mapping, and both markers appear in the record. -/
theorem c4_event_tagging :
    ∀ l : Log,
      (l.IsEvent = true → l.Attributes = none →
        createOtelLog l = .error "assignment to entry in nil map")
      ∧ (l.IsEvent = false →
        ∃ otl, createOtelLog l = .ok (otl, l)
          ∧ otl.Attributes = toKeyValueList l.Attributes
          ∧ ((KeyValue.mk keyAppdIsEvent (.StringValue "true") ∈ otl.Attributes
                ∧ KeyValue.mk keyAppdEventType (.StringValue l.TypeName) ∈ otl.Attributes)
              ↔ (KeyValue.mk keyAppdIsEvent (.StringValue "true") ∈
                    toKeyValueList l.Attributes
                ∧ KeyValue.mk keyAppdEventType (.StringValue l.TypeName) ∈
                    toKeyValueList l.Attributes)))
      ∧ (∀ m0 : List (String × GoValue), l.Attributes = some m0 → l.IsEvent = true →
        ∃ otl l', createOtelLog l = .ok (otl, l')
          ∧ l'.Attributes = some (setKey (setKey m0 keyAppdIsEvent (.goString "true"))
              keyAppdEventType (.goString l.TypeName))
          ∧ otl.Attributes = toKeyValueList l'.Attributes
          ∧ KeyValue.mk keyAppdIsEvent (.StringValue "true") ∈ otl.Attributes
          ∧ KeyValue.mk keyAppdEventType (.StringValue l.TypeName) ∈ otl.Attributes) := by
  intro l
  refine ⟨?_, ?_, ?_⟩
  · intro hE hm
    simp [createOtelLog, hE, hm, mapSet, bind, Except.bind]
  · intro hE
    have hstep : createOtelLog l = .ok
        ({ Body := .StringValue l.Body
           TimeUnixNano := toUint64 l.Timestamp
           Attributes := toKeyValueList l.Attributes
           SeverityText := if l.Severity ≠ "" then l.Severity else "" }, l) := by
      simp [createOtelLog, hE, bind, Except.bind, pure, Except.pure]
    exact ⟨_, hstep, rfl, Iff.rfl⟩
  · intro m0 hm hE
    have hstep : createOtelLog l = .ok
        ({ Body := .StringValue l.Body
           TimeUnixNano := toUint64 l.Timestamp
           Attributes := toKeyValueList (some (setKey
             (setKey m0 keyAppdIsEvent (.goString "true")) keyAppdEventType
             (.goString l.TypeName)))
           SeverityText := if l.Severity ≠ "" then l.Severity else "" },
         { l with Attributes := some (setKey
             (setKey m0 keyAppdIsEvent (.goString "true")) keyAppdEventType
             (.goString l.TypeName)) }) := by
      simp [createOtelLog, hE, hm, mapSet, bind, Except.bind, pure, Except.pure]
    have hmemA : KeyValue.mk keyAppdIsEvent (.StringValue "true") ∈
        toKeyValueList (some (setKey (setKey m0 keyAppdIsEvent (.goString "true"))
          keyAppdEventType (.goString l.TypeName))) :=
      mem_toKeyValueList
        (mem_setKey_of_ne _ _ (by decide) (mem_setKey_self m0 _ _)) rfl
    have hmemB : KeyValue.mk keyAppdEventType (.StringValue l.TypeName) ∈
        toKeyValueList (some (setKey (setKey m0 keyAppdIsEvent (.goString "true"))
          keyAppdEventType (.goString l.TypeName))) :=
      mem_toKeyValueList (mem_setKey_self _ keyAppdEventType _) rfl
    exact ⟨_, _, hstep, rfl, rfl, hmemA, hmemB⟩

/-- Concrete event log with a present attribute map, used by the C4
witness. -/
def c4Log : Log :=
  { TypeName := "user.login"
    Body := "hi"
    Timestamp := 5
    Severity := "INFO"
    Attributes := some [("user", .goString "r")]
    IsEvent := true }

/-- Concrete non-event log with a nil attribute map, used by the C4
witness. -/
def c4PlainLog : Log :=
  { TypeName := "t"
    Body := "b"
    Timestamp := 1
    Severity := ""
    Attributes := none
    IsEvent := false }

/-- C4 witness: the amended theorem evaluated at the panicking nil-map
event log, at a non-event log with a nil map, and at an event log with a
present map. -/
theorem c4_witness :
    createOtelLog c4NilLog = .error "assignment to entry in nil map"
    ∧ (∃ otl, createOtelLog c4PlainLog = .ok (otl, c4PlainLog)
        ∧ otl.Attributes = toKeyValueList c4PlainLog.Attributes
        ∧ ((KeyValue.mk keyAppdIsEvent (.StringValue "true") ∈ otl.Attributes
              ∧ KeyValue.mk keyAppdEventType (.StringValue c4PlainLog.TypeName) ∈
                  otl.Attributes)
            ↔ (KeyValue.mk keyAppdIsEvent (.StringValue "true") ∈
                  toKeyValueList c4PlainLog.Attributes
              ∧ KeyValue.mk keyAppdEventType (.StringValue c4PlainLog.TypeName) ∈
                  toKeyValueList c4PlainLog.Attributes)))
    ∧ (∃ otl l', createOtelLog c4Log = .ok (otl, l')
        ∧ l'.Attributes = some (setKey (setKey [("user", .goString "r")]
            keyAppdIsEvent (.goString "true")) keyAppdEventType
            (.goString c4Log.TypeName))
        ∧ otl.Attributes = toKeyValueList l'.Attributes
        ∧ KeyValue.mk keyAppdIsEvent (.StringValue "true") ∈ otl.Attributes
        ∧ KeyValue.mk keyAppdEventType (.StringValue c4Log.TypeName) ∈ otl.Attributes) :=
  ⟨(c4_event_tagging c4NilLog).1 rfl rfl,
   (c4_event_tagging c4PlainLog).2.1 rfl,
   (c4_event_tagging c4Log).2.2 [("user", .goString "r")] rfl rfl⟩

/-- Inversion of a successful `buildLogsPayload`. -/
theorem buildLogsPayload_ok {entities : List Entity} {req : ExportLogsServiceRequest}
    (h : buildLogsPayload entities = .ok req) :
    buildResourceLogs entities = .ok req.ResourceLogs := by
  simp only [buildLogsPayload, bind, Except.bind] at h
  cases hb : buildResourceLogs entities with
  | error p => rw [hb] at h; cases h
  | ok rls =>
      rw [hb] at h
      simp only [pure, Except.pure, Except.ok.injEq] at h
      subst h
      rfl

/-! Claim C5: empty-entity skip and the no-op success of empty exports. -/

/-- C5 (confirmed): when no entity carries telemetry of the exported kind,
each of the four export operations returns success with an empty effect
trace — no marshaling, no dump, no HTTP POST; and each payload builder
emits exactly one resource block per entity with a non-empty telemetry
list of its kind, so empty entities contribute no block. -/
theorem c5_empty_entity_skip :
    ∀ (exp : Exporter) (entities : List Entity) (postErr : Option String),
      ((∀ e ∈ entities, e.Metrics = []) →
        ExportMetrics exp entities postErr = (.ok, []))
      ∧ ((∀ e ∈ entities, e.Logs = []) →
        ExportLogs exp entities postErr = (.ok, [])
          ∧ ExportEvents exp entities postErr = (.ok, []))
      ∧ ((∀ e ∈ entities, e.Spans = []) →
        ExportSpans exp entities postErr = (.ok, []))
      ∧ (buildMetricsPayload entities).ResourceMetrics.length =
          (entities.filter fun e => !e.Metrics.isEmpty).length
      ∧ (∀ req, buildLogsPayload entities = .ok req →
          req.ResourceLogs.length = (entities.filter fun e => !e.Logs.isEmpty).length)
      ∧ (buildSpansPayload entities).ResourceSpans.length =
          (entities.filter fun e => !e.Spans.isEmpty).length := by
  intro exp entities postErr
  refine ⟨?_, ?_, ?_, ?_, ?_, buildSpansPayload_length entities⟩
  · intro h
    have hfil : entities.filter (fun e => !e.Metrics.isEmpty) = [] := by
      rw [List.filter_eq_nil_iff]
      intro e he
      simp [h e he]
    have hb : (buildMetricsPayload entities).ResourceMetrics = [] := by
      have hmap := buildMetricsPayload_map_metrics entities
      rw [hfil] at hmap
      simpa using List.map_eq_nil_iff.mp hmap
    simp [ExportMetrics, hb]
  · intro h
    have hb := buildResourceLogs_all_empty h
    constructor <;> simp [ExportLogs, ExportEvents, buildLogsPayload, hb, bind,
      Except.bind, pure, Except.pure]
  · intro h
    have hfil : entities.filter (fun e => !e.Spans.isEmpty) = [] := by
      rw [List.filter_eq_nil_iff]
      intro e he
      simp [h e he]
    have hb : (buildSpansPayload entities).ResourceSpans = [] := by
      have hlen := buildSpansPayload_length entities
      rw [hfil] at hlen
      exact List.length_eq_zero.mp hlen
    simp [ExportSpans, hb]
  · have hmap := congrArg List.length (buildMetricsPayload_map_metrics entities)
    simpa using hmap
  · intro req hreq
    exact buildResourceLogs_length (buildLogsPayload_ok hreq)

/-- Concrete entity with no telemetry at all, used by the C5 witness. -/
def c5Entity : Entity :=
  { Attributes := some [("service", .goString "x")]
    Relationships := []
    Metrics := []
    Logs := []
    Spans := [] }

/-- C5 witness: all four export operations on a single empty entity return
success and perform no effect. -/
theorem c5_witness :
    ExportMetrics ⟨false, "", false⟩ [c5Entity] none = (.ok, [])
    ∧ ExportLogs ⟨false, "", false⟩ [c5Entity] none = (.ok, [])
    ∧ ExportEvents ⟨false, "", false⟩ [c5Entity] none = (.ok, [])
    ∧ ExportSpans ⟨false, "", false⟩ [c5Entity] none = (.ok, []) := by
  have h := c5_empty_entity_skip ⟨false, "", false⟩ [c5Entity] none
  have hm := h.1 fun e he => by cases List.mem_singleton.mp he; rfl
  have hl := h.2.1 fun e he => by cases List.mem_singleton.mp he; rfl
  have hs := h.2.2.1 fun e he => by cases List.mem_singleton.mp he; rfl
  exact ⟨hm, hl.1, hl.2, hs⟩

/-! Claim C6: dry-run purity of the transport driver. -/

/-- C6 (confirmed): with `DryRun` set, `exportHTTP` performs no HTTP POST
and returns success; its trace is exactly the successful marshaling
followed by one dump invocation when a dump function is configured (and
nothing else).  Lifted to `ExportMetrics`: for a non-empty payload with a
dump function configured, the call succeeds with exactly the trace
[marshalled, dumped]. -/
theorem c6_dry_run_purity :
    ∀ (exp : Exporter) (path : String) (postErr : Option String)
      (entities : List Entity) (e : Entity),
      exp.DryRun = true →
      (exportHTTP exp path postErr =
        (.ok, Event.marshalled ::
          (if exp.DumpConfigured then [Event.dumped exp.DumpFormat] else [])))
      ∧ (e ∈ entities → e.Metrics ≠ [] → exp.DumpConfigured = true →
          ExportMetrics exp entities postErr =
            (.ok, [Event.marshalled, Event.dumped exp.DumpFormat])) := by
  intro exp path postErr entities e hdry
  constructor
  · cases hdc : exp.DumpConfigured <;> simp [exportHTTP, hdry, hdc]
  · intro he hm hdump
    have hne := buildMetricsPayload_ne_nil he hm
    simp only [ExportMetrics]
    cases hb : (buildMetricsPayload entities).ResourceMetrics with
    | nil => exact absurd hb hne
    | cons a l => simp [exportHTTP, hdry, hdump]

/-- Concrete gauge metric used by the C6 witness entity. -/
def c6Metric : Metric :=
  { TypeName := "reqs"
    ContentType := "gauge"
    «Type» := "double"
    IsMonotonic := false
    AggregationTemporality := .unspecified
    Attributes := none
    DataPoints := [] }

/-- Concrete entity with one metric, used by the C6 witness. -/
def c6Entity : Entity :=
  { Attributes := none
    Relationships := []
    Metrics := [c6Metric]
    Logs := []
    Spans := [] }

/-- C6 witness: a dry-run exporter with a configured json dump, on a
non-empty metrics payload, succeeds with exactly one dump after the
marshal and no POST. -/
theorem c6_witness :
    exportHTTP ⟨true, "json", true⟩ pathMetrics none =
      (.ok, [Event.marshalled, Event.dumped "json"])
    ∧ ExportMetrics ⟨true, "json", true⟩ [c6Entity] none =
      (.ok, [Event.marshalled, Event.dumped "json"]) := by
  have h := c6_dry_run_purity ⟨true, "json", true⟩ pathMetrics none [c6Entity] c6Entity rfl
  exact ⟨by simpa using h.1,
    h.2 (List.mem_singleton.mpr rfl) (List.cons_ne_nil _ _) rfl⟩

/-! Claim C7: stability of the instrumentation scope. -/

/-- C7 (confirmed): every resource block emitted by the metrics, logs
(hence events) and spans builders carries exactly one instrumentation
scope, and it is the constant scope with name "sample-datagen" and version
"0.0.1". -/
theorem c7_scope_stability :
    ∀ entities : List Entity,
      (∀ rm ∈ (buildMetricsPayload entities).ResourceMetrics,
        rm.ScopeMetrics.map ScopeMetrics.Scope = [getInstrumentationScope])
      ∧ (∀ req, buildLogsPayload entities = .ok req →
          ∀ rl ∈ req.ResourceLogs,
            rl.ScopeLogs.map ScopeLogs.Scope = [getInstrumentationScope])
      ∧ (∀ rs ∈ (buildSpansPayload entities).ResourceSpans,
          rs.ScopeSpans.map ScopeSpans.Scope = [getInstrumentationScope])
      ∧ getInstrumentationScope = { Name := "sample-datagen", Version := "0.0.1" } := by
  intro entities
  refine ⟨buildMetricsPayload_scopes entities, ?_, buildSpansPayload_scopes entities, rfl⟩
  intro req hreq
  exact buildResourceLogs_scopes (buildLogsPayload_ok hreq)

/-- Concrete gauge metric used by the C7 witness entity. -/
def c7Metric : Metric :=
  { TypeName := "g"
    ContentType := "gauge"
    «Type» := "double"
    IsMonotonic := false
    AggregationTemporality := .unspecified
    Attributes := none
    DataPoints := [] }

/-- Concrete entity with one metric, used by the C7 witness. -/
def c7Entity : Entity :=
  { Attributes := none
    Relationships := []
    Metrics := [c7Metric]
    Logs := []
    Spans := [] }

/-- The resource block the metrics builder emits for `c7Entity`. -/
def c7Block : ResourceMetrics :=
  { Resource := { Attributes := [] }
    ScopeMetrics := [{ Scope := getInstrumentationScope
                       Metrics := [some { Name := "g", Data := .gauge { DataPoints := [] } }] }] }

/-- C7 witness: the scope list of the concrete block emitted for
`c7Entity` is the singleton constant scope. -/
theorem c7_witness :
    c7Block.ScopeMetrics.map ScopeMetrics.Scope = [getInstrumentationScope] :=
  (c7_scope_stability [c7Entity]).1 c7Block
    (by rw [show (buildMetricsPayload [c7Entity]).ResourceMetrics = [c7Block] from rfl]
        exact List.mem_singleton.mpr rfl)

/-! Claim C8: equivalence of the two relationship attachment points. -/

/-- C8 (confirmed): the metrics-side attachment point computes exactly the
log-side attachment applied to the carried resource — so the two produce
identical resources (hence identical wire bytes) on identical input — and
on a resource free of the reserved key, the reserved relationship key is
appended exactly once when the relationship sequence is non-empty and not
at all when it is empty. -/
theorem c8_relationship_attachment :
    ∀ (rels : List Relationship) (rm : ResourceMetrics) (r : Resource),
      addRelationshipsToMetrics rels rm =
        { rm with Resource := addRelationships rels rm.Resource }
      ∧ ((∀ kv ∈ r.Attributes, kv.Key ≠ keyAppdFMMEntityRelationships) →
          ((addRelationships rels r).Attributes.countP
              fun kv => kv.Key == keyAppdFMMEntityRelationships) =
            if rels.isEmpty then 0 else 1) := by
  intro rels rm r
  constructor
  · by_cases h : rels.length > 0
    · simp [addRelationshipsToMetrics, addRelationships, h]
    · simp [addRelationshipsToMetrics, addRelationships, h]
  · intro hfree
    have h0 : r.Attributes.countP (fun kv => kv.Key == keyAppdFMMEntityRelationships) = 0 := by
      rw [List.countP_eq_zero]
      intro kv hkv
      simpa using hfree kv hkv
    by_cases h : rels.length > 0
    · have hrels : rels.isEmpty = false := by cases rels <;> simp_all
      simp [addRelationships, h, List.countP_append, h0, hrels, List.countP_cons,
        KeyValue.Key]
      intro a ha
      exact hfree a ha
    · have hrels : rels = [] := by cases rels <;> simp_all
      subst hrels
      simp [addRelationships, h0]

/-- Concrete relationship list used by the C8 witness. -/
def c8Rels : List Relationship := [{ Attributes := some [("to", .goString "x")] }]

/-- Concrete `ResourceMetrics` used by the C8 witness. -/
def c8RM : ResourceMetrics :=
  { Resource := { Attributes := [] }, ScopeMetrics := [] }

/-- C8 witness: the theorem evaluated at one relationship and a resource
with no attributes; the reserved key appears exactly once. -/
theorem c8_witness :
    addRelationshipsToMetrics c8Rels c8RM =
      { c8RM with Resource := addRelationships c8Rels c8RM.Resource }
    ∧ ((addRelationships c8Rels c8RM.Resource).Attributes.countP
        fun kv => kv.Key == keyAppdFMMEntityRelationships) =
      if c8Rels.isEmpty then 0 else 1 := by
  have h := c8_relationship_attachment c8Rels c8RM c8RM.Resource
  exact ⟨h.1, h.2 fun kv hkv => by cases hkv⟩


/-! Claims C9 and C10: numeric value selection on the data points. -/

/-- Data points carried by a built metric (empty for the nil metric). -/
def metricDataPoints : Option OtelMetric → List NumberDataPoint
  | some ⟨_, .sum s⟩ => s.DataPoints
  | some ⟨_, .gauge g⟩ => g.DataPoints
  | none => []

/-- C9 (confirmed): for every sum or gauge metric with Type "long", each
emitted NumberDataPoint carries the integer value obtained from the
caller-provided double by `ratTrunc`, the truncation toward zero of Go's
`int64(dp.Value)` conversion; with Type "double" the double is passed
through unchanged. -/
theorem c9_long_truncation :
    ∀ m : Metric, (m.ContentType = "sum" ∨ m.ContentType = "gauge") →
      (m.«Type» = "long" →
        metricDataPoints (createOtelMetric m) = m.DataPoints.map fun dp =>
          { StartTimeUnixNano := toUint64 dp.StartTime
            TimeUnixNano := toUint64 dp.EndTime
            Attributes := toKeyValueList m.Attributes
            Value := some (.AsInt (ratTrunc dp.Value)) })
      ∧ (m.«Type» = "double" →
        metricDataPoints (createOtelMetric m) = m.DataPoints.map fun dp =>
          { StartTimeUnixNano := toUint64 dp.StartTime
            TimeUnixNano := toUint64 dp.EndTime
            Attributes := toKeyValueList m.Attributes
            Value := some (.AsDouble dp.Value) }) := by
  intro m hct
  constructor <;> intro ht <;> rcases hct with h | h <;>
    simp [createOtelMetric, metricDataPoints, h, ht]

/-- Concrete sum metric with Type "long" and a fractional double value,
used by the C9 witness. -/
def c9Metric : Metric :=
  { TypeName := "reqs"
    ContentType := "sum"
    «Type» := "long"
    IsMonotonic := true
    AggregationTemporality := .cumulative
    Attributes := none
    DataPoints := [{ StartTime := 1, EndTime := 2, Value := 7 / 2 }] }

/-- C9 witness: the theorem evaluated at `c9Metric`; the double 7/2 is
truncated to the integer 3. -/
theorem c9_witness :
    metricDataPoints (createOtelMetric c9Metric) =
      [{ StartTimeUnixNano := toUint64 1
         TimeUnixNano := toUint64 2
         Attributes := toKeyValueList none
         Value := some (.AsInt (ratTrunc (7 / 2 : ℚ))) }]
    ∧ ratTrunc (7 / 2 : ℚ) = 3 ∧ toUint64 1 = 1 :=
  ⟨(c9_long_truncation c9Metric (Or.inl rfl)).1 rfl,
   by norm_num [ratTrunc], by decide⟩

/-- C10 (confirmed): for every sum or gauge metric whose Type is neither
"long" nor "double", the builder still emits one NumberDataPoint per input
data point, with start/end times and attributes populated but with no
numeric value assigned (`Value = none`). -/
theorem c10_unknown_numeric_type :
    ∀ m : Metric, (m.ContentType = "sum" ∨ m.ContentType = "gauge") →
      m.«Type» ≠ "long" → m.«Type» ≠ "double" →
      (metricDataPoints (createOtelMetric m) = m.DataPoints.map fun dp =>
        { StartTimeUnixNano := toUint64 dp.StartTime
          TimeUnixNano := toUint64 dp.EndTime
          Attributes := toKeyValueList m.Attributes
          Value := none })
      ∧ (metricDataPoints (createOtelMetric m)).length = m.DataPoints.length := by
  intro m hct ht1 ht2
  have hmap : metricDataPoints (createOtelMetric m) = m.DataPoints.map fun dp =>
      ({ StartTimeUnixNano := toUint64 dp.StartTime
         TimeUnixNano := toUint64 dp.EndTime
         Attributes := toKeyValueList m.Attributes
         Value := none } : NumberDataPoint) := by
    rcases hct with h | h <;> simp [createOtelMetric, metricDataPoints, h, ht1, ht2]
  exact ⟨hmap, by simp [hmap]⟩

/-- Concrete gauge metric with the unknown numeric Type "int", used by the
C10 witness. -/
def c10Metric : Metric :=
  { TypeName := "g"
    ContentType := "gauge"
    «Type» := "int"
    IsMonotonic := false
    AggregationTemporality := .unspecified
    Attributes := none
    DataPoints := [{ StartTime := 3, EndTime := 4, Value := 9 }] }

/-- C10 witness: the theorem evaluated at `c10Metric`; one data point is
emitted, with no value set. -/
theorem c10_witness :
    metricDataPoints (createOtelMetric c10Metric) =
      [{ StartTimeUnixNano := toUint64 3
         TimeUnixNano := toUint64 4
         Attributes := toKeyValueList none
         Value := none }]
    ∧ (metricDataPoints (createOtelMetric c10Metric)).length =
        c10Metric.DataPoints.length :=
  c10_unknown_numeric_type c10Metric (Or.inr rfl) (by decide) (by decide)


end Melt
